import Mathlib

/-
Verification of the per-kind reconciliation core in pkg/apply/desiredset_process.go:
state listing, set comparison, cross-version delete filtering, and the
create/update/delete execution pipeline with its plan mode.

The Go code is shallowly embedded: maps become association lists iterated in
entry order (Go map iteration order is unspecified; the embedding fixes one
admissible order), the external collaborators (clients, informer caches, store
verbs, the patch sanitizer and the comparison/patch step) become deterministic
response functions gathered in an environment, and the error sink and the
mutating store calls become accumulated lists in the result.
-/

-- ## Definitions: the shallow embedding

/-- objectset.ObjectKey (pkg/objectset): identity of an object within one kind;
cluster-scoped objects use an empty Namespace. -/
structure ObjectKey where
  Namespace : String
  Name : String
deriving DecidableEq

/-- Modelled from the spec: the key's "namespace/name" string form used for
deterministic sorting (ObjectKey.String lives in pkg/objectset, not under src/). -/
def keyString (k : ObjectKey) : String := k.Namespace ++ "/" ++ k.Name

/-- Lexicographic string comparison, char list by char list; UTF-8 byte order
coincides with code-point order, so this is Go's built-in string order. -/
def strLeAux : List Char → List Char → Bool
  | [], _ => true
  | _ :: _, [] => false
  | a :: as, b :: bs =>
    if a.toNat < b.toNat then true
    else if b.toNat < a.toNat then false
    else strLeAux as bs

def strLe (a b : String) : Bool := strLeAux a.data b.data

/-- The comparator of sortObjectKeys: at-most order on the keys' string forms. -/
def keyLe (a b : ObjectKey) : Bool := strLe (keyString a) (keyString b)

/-- A metav1.OwnerReference as assignOwnerReference builds it. -/
structure OwnerReference where
  apiVersion : String
  kind : String
  name : String
  uid : String
  controller : Bool
  blockOwnerDeletion : Bool
deriving DecidableEq

/-- The object metadata visible through meta.Accessor: namespace, name, labels,
uid and owner references. Labels are an association list (a Go map). -/
structure ObjectMeta where
  Namespace : String
  Name : String
  labels : List (String × String)
  uid : String
  ownerReferences : List OwnerReference
deriving DecidableEq

/-- runtime.Object as the embedded functions observe it: metadata that the
accessor may fail to yield (meta = none models a meta.Accessor error). -/
structure K8sObject where
  meta : Option ObjectMeta
deriving DecidableEq

/-- Go label-map lookup: a missing key yields the zero value "". -/
def getLabel (m : ObjectMeta) (key : String) : String :=
  match m.labels.find? (fun p => p.1 == key) with
  | some p => p.2
  | none => ""

/-- Modelled from the spec: the label that disables pruning when set to "false"
(the LabelPrune constant is declared elsewhere in the apply package, not under src/). -/
def LabelPrune : String := "apply.cattle.io/prune"

/-- shouldPrune (desiredset_process.go:403-409): prune unless the object's
metadata is accessible and carries the prune label set to "false". -/
def shouldPrune (obj : K8sObject) : Bool :=
  match obj.meta with
  | none => true
  | some m => getLabel m LabelPrune != "false"

/-- objectset.ObjectByKey as an association list with (intended) unique keys. -/
abbrev ObjectByKey := List (ObjectKey × K8sObject)

def lookupKey (m : ObjectByKey) (k : ObjectKey) : Option K8sObject :=
  (m.find? (fun kv => kv.1 == k)).map (fun kv => kv.2)

def hasKey (m : ObjectByKey) (k : ObjectKey) : Bool := (lookupKey m k).isSome

/-- Go map assignment objs[k] = v on the association-list model. -/
def mapSet (m : ObjectByKey) (k : ObjectKey) (v : K8sObject) : ObjectByKey :=
  if m.any (fun kv => kv.1 == k) then
    m.map (fun kv => if kv.1 == k then (k, v) else kv)
  else m ++ [(k, v)]

/-- Go map deletion delete(objs, k) on the association-list model. -/
def mapDelete (m : ObjectByKey) (k : ObjectKey) : ObjectByKey :=
  m.filter (fun kv => kv.1 != k)

/-- The well-formedness of a Go map: no two entries share a key. -/
abbrev nodupKeys (m : ObjectByKey) : Prop := (m.map (fun kv => kv.1)).Nodup

/-- Modelled from the spec: the namespaces appearing in a desired object set
(ObjectByKey.Namespaces lives in pkg/objectset, not under src/). -/
def namespacesOf (m : ObjectByKey) : List String :=
  (m.map (fun kv => kv.1.Namespace)).dedup

/-- schema.GroupVersionKind, treated as an opaque type identifier. -/
structure GroupVersionKind where
  group : String
  version : String
  kind : String
deriving DecidableEq

structure GroupKind where
  group : String
  kind : String
deriving DecidableEq

def GroupVersionKind.GroupKind (g : GroupVersionKind) : GroupKind :=
  ⟨g.group, g.kind⟩

/-- schema.GroupVersion.String(): "group/version", or bare "version" for the core group. -/
def GroupVersionKind.apiVersion (g : GroupVersionKind) : String :=
  if g.group == "" then g.version else g.group ++ "/" ++ g.version

/-- Modelled from the spec: the overall multi-kind desired object collection
(objectset.ObjectSet, pkg/objectset, not under src/), as per-GVK desired key sets;
Contains gk key holds when some version of that group+kind carries the key. -/
structure ObjectSet where
  objects : List (GroupVersionKind × List ObjectKey)
deriving DecidableEq

def ObjectSet.Contains (o : ObjectSet) (gk : GroupKind) (key : ObjectKey) : Bool :=
  o.objects.any (fun e => e.1.GroupKind == gk && e.2.contains key)

/-- sortObjectKeys (desiredset_process.go:435-439) sorts in place by the string
form of the keys; the model is an insertion sort with the same comparator
(sort.Slice is an unstable sort; any sorted arrangement is admissible). -/
def insertKey (x : ObjectKey) : List ObjectKey → List ObjectKey
  | [] => [x]
  | y :: ys => if keyLe x y then x :: y :: ys else y :: insertKey x ys

def sortObjectKeys (keys : List ObjectKey) : List ObjectKey :=
  keys.foldr insertKey []

/-- compareSets (desiredset_process.go:411-433): desired keys found in existing
go to update, missing ones to create; existing keys absent from desired and
prune-eligible go to delete; all three outputs sorted. Returned in source order
(toCreate, toDelete, toUpdate). -/
def compareSets (existingSet newSet : ObjectByKey) :
    List ObjectKey × List ObjectKey × List ObjectKey :=
  let toUpdate := (newSet.filter (fun kv => hasKey existingSet kv.1)).map (fun kv => kv.1)
  let toCreate := (newSet.filter (fun kv => !hasKey existingSet kv.1)).map (fun kv => kv.1)
  let toDelete :=
    (existingSet.filter (fun kv => !hasKey newSet kv.1 && shouldPrune kv.2)).map (fun kv => kv.1)
  (sortObjectKeys toCreate, sortObjectKeys toDelete, sortObjectKeys toUpdate)

-- ### Cross-version delete filtering

/-- filterCrossVersion (desiredset_process.go:195-208): drop delete candidates
whose key is carried by the overall collection under the same group+kind, or
whose default-namespace key matches an unqualified name there; keep the rest. -/
def filterCrossVersion (defaultNamespace : String) (objSet : ObjectSet)
    (gvk : GroupVersionKind) (keys : List ObjectKey) : List ObjectKey :=
  let gk := gvk.GroupKind
  keys.foldl (fun result key =>
    if objSet.Contains gk key then result
    else if key.Namespace == defaultNamespace && objSet.Contains gk ⟨"", key.Name⟩ then result
    else result ++ [key]) []

-- ### Normalisation (desiredset_process.go:59-184)

/-- adjustNamespace (desiredset_process.go:143-162): every desired object with an
empty namespace is copied, stamped with the default namespace and re-keyed. The
Go loop mutates the map it ranges over; the model folds over a snapshot of the
entries, which is one admissible iteration. -/
def adjustNamespace (defaultNamespace : String) (objs : ObjectByKey) :
    Except String ObjectByKey :=
  objs.foldlM (fun m kv =>
    if kv.1.Namespace != "" then pure m
    else
      match kv.2.meta with
      | none => Except.error "no meta accessor"
      | some mt =>
        let v : K8sObject := ⟨some { mt with Namespace := defaultNamespace }⟩
        pure (mapSet (mapDelete m kv.1) { kv.1 with Namespace := defaultNamespace } v)) objs

/-- clearNamespace (desiredset_process.go:164-184): cluster-scoped kinds must not
carry a namespace; offending objects are copied, stripped and re-keyed. -/
def clearNamespace (objs : ObjectByKey) : Except String ObjectByKey :=
  objs.foldlM (fun m kv =>
    if kv.1.Namespace == "" then pure m
    else
      match kv.2.meta with
      | none => Except.error "no meta accessor"
      | some mt =>
        let v : K8sObject := ⟨some { mt with Namespace := "" }⟩
        pure (mapSet (mapDelete m kv.1) { kv.1 with Namespace := "" } v)) objs

-- ### Errors, store operations and the environment

/-- Errors from the store create verb; IsAlreadyExists singles out the take-over case. -/
inductive StoreErr where
  | alreadyExists (msg : String)
  | otherErr (msg : String)
deriving DecidableEq

def StoreErr.isAlreadyExists : StoreErr → Bool
  | .alreadyExists _ => true
  | .otherErr _ => false

/-- Outcome of the comparison step: nil, the ErrReplace sentinel
(desiredset_process.go:27-32), or some other error. -/
inductive UpdErr where
  | replace
  | otherErr (msg : String)
deriving DecidableEq

/-- One invocation of the patcher capability: namespace, name, patch type, body. -/
structure PatchCall where
  Namespace : String
  Name : String
  patchType : String
  data : String
deriving DecidableEq

/-- Modelled from the spec: the comparison/patch step is an external collaborator
(compare(kind, reconciler?, patcher, client, debugID, existingObj, desiredObj,
otherWorkPending) → error); it is modelled by the invocations it issues through
the patcher capability plus the error it returns. -/
structure CompareOutcome where
  patchCalls : List PatchCall
  result : Option UpdErr
deriving DecidableEq

/-- Everything reported through the accumulating error sink o.err. -/
inductive ProcErr where
  | resolveFailed (msg : String)
  | scopeLookupFailed (msg : String)
  | invalidClusterScoped
  | normalizeFailed (msg : String)
  | listFailed (msgs : List String)
  | prepareCreateFailed (k : ObjectKey) (msg : String)
  | createFailed (k : ObjectKey) (e : StoreErr)
  | deleteFailed (k : ObjectKey) (msg : String)
  | replaceWait (k : ObjectKey)
  | updateFailed (k : ObjectKey) (msg : String)
deriving DecidableEq

/-- Mutating calls issued against the backing store. -/
inductive StoreOp where
  | createOp (k : ObjectKey)
  | deleteOp (k : ObjectKey) (force : Bool)
  | patchOp (ns name data : String)
deriving DecidableEq

/-- One invocation of the comparison step together with the reconciler argument
it received (none when no override is consulted). -/
structure CompareCall where
  key : ObjectKey
  reconciler : Option String
deriving DecidableEq

/-- The dry-run plan: per-kind create and delete key lists, plus flat update
records (gvk, namespace, name, sanitized patch body). -/
structure Plan where
  Create : List (GroupVersionKind × List ObjectKey)
  Delete : List (GroupVersionKind × List ObjectKey)
  Update : List (GroupVersionKind × String × String × String)
deriving DecidableEq

def Plan.empty : Plan := ⟨[], [], []⟩

/-- The desiredSet configuration fields read by the embedded functions, with the
per-gvk lookups (reconcilers[gvk]) already resolved for the processed kind. -/
structure DesiredSet where
  defaultNamespace : String
  listerNamespace : String
  restrictClusterScoped : Bool
  setOwnerReference : Bool
  ownerReferenceController : Bool
  ownerReferenceBlock : Bool
  owner : Option (GroupVersionKind × K8sObject)
  objs : ObjectSet
  createPlan : Bool
  reconciler : Option String

/-- The external collaborators, as deterministic response functions: resolve
stands for getControllerAndClient (an error, or whether an informer was found);
isNamespaced for the scope lookups; cacheList / listAll / listNs for the cache
indexer and the remote list verbs; prepareCreate, createObj, getObj, deleteObj
for the create/get/delete verbs; sanitize for sanitizePatch; compare for the
comparison/patch step. -/
structure Env where
  resolve : Except String Bool
  isNamespaced : Except String Bool
  isNamespacedOwner : Except String Bool
  cacheList : String → Except String (List K8sObject)
  listAll : Except String (List K8sObject)
  listNs : String → Except String (List K8sObject)
  prepareCreate : GroupVersionKind → Option K8sObject → Except String K8sObject
  createObj : ObjectKey → K8sObject → Except StoreErr K8sObject
  getObj : ObjectKey → Except String K8sObject
  deleteObj : ObjectKey → Bool → Option String
  sanitize : String → Bool → Except String String
  compare : ObjectKey → Option String → Option K8sObject → Option K8sObject → Bool → CompareOutcome

/-- assignOwnerReference (desiredset_process.go:59-141): stamp an owner reference
on every desired object the owner may claim, re-keying objects whose namespace
is assigned from the owner. The owner object carries its introspected GVK
(gvk2.Get lives outside src/). Iterates a snapshot of the entries. -/
def assignOwnerReference (cfg : DesiredSet) (env : Env) (objs : ObjectByKey) :
    Except String ObjectByKey :=
  match cfg.owner with
  | none => Except.error "no owner set to assign owner reference"
  | some (ownerGVK, ownerObj) =>
    match ownerObj.meta with
    | none => Except.error "no meta accessor"
    | some ownerMeta =>
      match env.isNamespacedOwner with
      | .error e => Except.error e
      | .ok ownerNSed =>
        objs.foldlM (fun m kv =>
          match env.isNamespaced with
          | .error e => Except.error e
          | .ok nsed =>
            if ownerNSed && !nsed then pure m
            else
              let assignNS := nsed && kv.1.Namespace == ""
              let assignOwner :=
                !(nsed && kv.1.Namespace != "" && kv.1.Namespace != ownerMeta.Namespace && ownerNSed)
              if !assignOwner then pure m
              else
                match kv.2.meta with
                | none => Except.error "no meta accessor"
                | some mt0 =>
                  let mt1 := if assignNS then { mt0 with Namespace := ownerMeta.Namespace } else mt0
                  let shouldSet := !(mt1.ownerReferences.any (fun of => of.uid == ownerMeta.uid))
                  let mt2 :=
                    if shouldSet then
                      { mt1 with ownerReferences := mt1.ownerReferences ++
                          [{ apiVersion := ownerGVK.apiVersion, kind := ownerGVK.kind,
                             name := ownerMeta.Name, uid := ownerMeta.uid,
                             controller := cfg.ownerReferenceController,
                             blockOwnerDeletion := cfg.ownerReferenceBlock }] }
                    else mt1
                  let v : K8sObject := ⟨some mt2⟩
                  if assignNS then
                    pure (mapSet (mapDelete m kv.1) { kv.1 with Namespace := ownerMeta.Namespace } v)
                  else
                    pure (mapSet m kv.1 v)) objs

-- ### State listing (desiredset_process.go:341-401, 441-496)

/-- Modelled from the spec: merr.NewErrors aggregates the collected errors and is
nil exactly when none were collected (pkg/merr, not under src/). -/
def newErrors (errs : List String) : Option (List String) :=
  if errs.isEmpty then none else some errs

/-- addObjectToMap (desiredset_process.go:441-453): key each listed object by its
metadata namespace+name; an accessor failure is a per-object soft error. -/
def addObjectToMap (objs : ObjectByKey) (obj : K8sObject) : Except String ObjectByKey :=
  match obj.meta with
  | none => Except.error "no meta accessor"
  | some m => Except.ok (mapSet objs ⟨m.Namespace, m.Name⟩ obj)

/-- The appendFn loops of list: add every listed item, collecting per-object
decode errors without stopping. -/
def addAllObjects (acc : ObjectByKey × List String) (items : List K8sObject) :
    ObjectByKey × List String :=
  items.foldl (fun acc obj =>
    match addObjectToMap acc.1 obj with
    | .ok m => (m, acc.2)
    | .error e => (acc.1, acc.2 ++ [e])) acc

/-- allNamespaceList (desiredset_process.go:456-467): one unscoped remote call;
returns the merged map, the per-object errors and the call error if any. -/
def allNamespaceList (env : Env) : ObjectByKey × List String × Option String :=
  match env.listAll with
  | .error e => ([], [], some e)
  | .ok items =>
    let r := addAllObjects ([], []) items
    (r.1, r.2, none)

/-- multiNamespaceList (desiredset_process.go:470-496), sequentialised: the Go
version lists the namespaces concurrently, merging under a mutex and returning
the first error while letting the other calls finish; the model visits the
namespaces in order, merges every successful call and keeps the first error,
matching one admissible interleaving. -/
def multiNamespaceList (env : Env) (namespaces : List String) :
    ObjectByKey × List String × Option String :=
  namespaces.foldl (fun acc ns =>
    match env.listNs ns with
    | .error e =>
      (acc.1, acc.2.1, match acc.2.2 with | some e0 => some e0 | none => some e)
    | .ok items =>
      let r := addAllObjects (acc.1, acc.2.1) items
      (r.1, r.2, acc.2.2)) ([], [], none)

/-- list (desiredset_process.go:341-401): informer-backed listing when a cache is
available, otherwise remote listing scoped by the lister namespace, the owner
(all namespaces) or the desired objects' namespaces; returns the partially
populated map together with the aggregated error. -/
def list (cfg : DesiredSet) (env : Env) (namespaced hasInformer : Bool)
    (desiredObjects : ObjectByKey) : ObjectByKey × Option (List String) :=
  if !hasInformer then
    let namespaces :=
      if cfg.listerNamespace != "" then [cfg.listerNamespace]
      else namespacesOf desiredObjects
    if cfg.owner.isSome && cfg.listerNamespace == "" then
      let r := allNamespaceList env
      (r.1, newErrors (r.2.1 ++ r.2.2.toList))
    else
      let r := multiNamespaceList env namespaces
      (r.1, newErrors (r.2.1 ++ r.2.2.toList))
  else
    let ns := if namespaced then cfg.listerNamespace else ""
    match env.cacheList ns with
    | .error e => ([], newErrors [e])
    | .ok items =>
      let r := addAllObjects ([], []) items
      (r.1, newErrors r.2)

-- ### Execution pipeline (desiredset_process.go:265-339)

/-- The mutable state threaded through the create/update/delete closures:
the existing map and toUpdate list (both extended by the take-over path),
the error sink, the mutating store calls, the comparison-step invocations and
the plan's update records. -/
structure ExecState where
  existing : ObjectByKey
  toUpdate : List ObjectKey
  errs : List ProcErr
  ops : List StoreOp
  compareCalls : List CompareCall
  planUpdates : List (GroupVersionKind × String × String × String)
deriving DecidableEq

/-- One patcher invocation: in plan mode the recording patcher
(desiredset_process.go:270-279) sanitizes the body and records it in the plan
unless it is the no-op patch; otherwise the patch is applied to the store. -/
def applyPatchCall (env : Env) (gvk : GroupVersionKind) (plan : Bool)
    (st : ExecState) (pc : PatchCall) : ExecState :=
  if plan then
    match env.sanitize pc.data true with
    | .error _ => st
    | .ok d =>
      if d != "{}" then
        { st with planUpdates := st.planUpdates ++ [(gvk, pc.Namespace, pc.Name, d)] }
      else st
  else
    { st with ops := st.ops ++ [StoreOp.patchOp pc.Namespace pc.Name pc.data] }

/-- createF (desiredset_process.go:285-308): prepare and create; on an
already-exists conflict fetch the existing object and reclassify the key as an
update (take-over); if the fetch also fails, report the original create error. -/
def createF (env : Env) (gvk : GroupVersionKind) (objs : ObjectByKey)
    (st : ExecState) (k : ObjectKey) : ExecState :=
  match env.prepareCreate gvk (lookupKey objs k) with
  | .error e => { st with errs := st.errs ++ [ProcErr.prepareCreateFailed k e] }
  | .ok obj =>
    let st := { st with ops := st.ops ++ [StoreOp.createOp k] }
    match env.createObj k obj with
    | .ok _ => st
    | .error e =>
      if e.isAlreadyExists then
        match env.getObj k with
        | .ok existingObj =>
          { st with toUpdate := st.toUpdate ++ [k], existing := mapSet st.existing k existingObj }
        | .error _ => { st with errs := st.errs ++ [ProcErr.createFailed k e] }
      else { st with errs := st.errs ++ [ProcErr.createFailed k e] }

/-- deleteF (desiredset_process.go:310-316): delete with the given force flag;
failures are reported per key. -/
def deleteF (env : Env) (st : ExecState) (k : ObjectKey) (force : Bool) : ExecState :=
  let st := { st with ops := st.ops ++ [StoreOp.deleteOp k force] }
  match env.deleteObj k force with
  | some e => { st with errs := st.errs ++ [ProcErr.deleteFailed k e] }
  | none => st

/-- updateF (desiredset_process.go:318-326): run the comparison step; the
ErrReplace sentinel triggers a force delete plus a transient replace-wait
report, any other error is reported as an update failure. -/
def updateF (env : Env) (gvk : GroupVersionKind) (objs : ObjectByKey)
    (reconciler : Option String) (plan : Bool) (pending : Bool)
    (st : ExecState) (k : ObjectKey) : ExecState :=
  let out := env.compare k reconciler (lookupKey st.existing k) (lookupKey objs k) pending
  let st := { st with compareCalls := st.compareCalls ++ [⟨k, reconciler⟩] }
  let st := out.patchCalls.foldl (applyPatchCall env gvk plan) st
  match out.result with
  | some UpdErr.replace =>
    let st := deleteF env st k true
    { st with errs := st.errs ++ [ProcErr.replaceWait k] }
  | some (UpdErr.otherErr e) => { st with errs := st.errs ++ [ProcErr.updateFailed k e] }
  | none => st

/-- What one call of process reports and does: the error sink, the mutating
store calls, the comparison-step invocations and the populated plan. -/
structure ProcessResult where
  errs : List ProcErr
  ops : List StoreOp
  compareCalls : List CompareCall
  plan : Plan
deriving DecidableEq

def abortResult (e : ProcErr) : ProcessResult := ⟨[e], [], [], Plan.empty⟩

/-- process (desiredset_process.go:210-339): resolve, guard scope, normalise the
desired map, list existing state, diff, filter cross-version deletes, switch
into plan mode if requested, then run the create, update and delete phases in
that order. -/
def process (cfg : DesiredSet) (env : Env) (gvk : GroupVersionKind)
    (objsIn : ObjectByKey) : ProcessResult :=
  match env.resolve with
  | .error e => abortResult (ProcErr.resolveFailed e)
  | .ok hasInformer =>
  match env.isNamespaced with
  | .error e => abortResult (ProcErr.scopeLookupFailed e)
  | .ok nsed =>
  if !nsed && cfg.restrictClusterScoped then abortResult ProcErr.invalidClusterScoped
  else
  match (if cfg.setOwnerReference && cfg.owner.isSome then
          assignOwnerReference cfg env objsIn
        else Except.ok objsIn) with
  | .error e => abortResult (ProcErr.normalizeFailed e)
  | .ok objs1 =>
  match (if nsed then adjustNamespace cfg.defaultNamespace objs1 else clearNamespace objs1) with
  | .error e => abortResult (ProcErr.normalizeFailed e)
  | .ok objs =>
  let listed := list cfg env nsed hasInformer objs
  match listed.2 with
  | some es => abortResult (ProcErr.listFailed es)
  | none =>
  let existing := listed.1
  let t := compareSets existing objs
  let toCreate0 := t.1
  let toDelete0 := filterCrossVersion cfg.defaultNamespace cfg.objs gvk t.2.1
  let toUpdate0 := t.2.2
  let planCreate : List (GroupVersionKind × List ObjectKey) :=
    if cfg.createPlan then [(gvk, toCreate0)] else []
  let planDelete : List (GroupVersionKind × List ObjectKey) :=
    if cfg.createPlan then [(gvk, toDelete0)] else []
  let reconciler := if cfg.createPlan then none else cfg.reconciler
  let toCreate := if cfg.createPlan then [] else toCreate0
  let toDelete := if cfg.createPlan then [] else toDelete0
  let pending := !toCreate.isEmpty || !toDelete.isEmpty
  let st0 : ExecState := ⟨existing, toUpdate0, [], [], [], []⟩
  let st1 := toCreate.foldl (createF env gvk objs) st0
  let st2 := st1.toUpdate.foldl (updateF env gvk objs reconciler cfg.createPlan pending) st1
  let st3 := toDelete.foldl (fun s k => deleteF env s k false) st2
  { errs := st3.errs, ops := st3.ops, compareCalls := st3.compareCalls,
    plan := { Create := planCreate, Delete := planDelete, Update := st3.planUpdates } }

/-- The boolean the spec talks about: the object carries a label explicitly
disabling pruning (prune label set to the string "false"). -/
def hasPruneDisableLabel (obj : K8sObject) : Bool :=
  match obj.meta with
  | none => false
  | some m => getLabel m LabelPrune == "false"

-- ### C6

/-- Modelled from the claim's words, for refutation: C6's stated removal
condition — the key is carried by the overall collection under the same
group+kind but a DIFFERENT version, or the key sits in the default namespace and
its bare name is carried unqualified. -/
def specCrossVersionRemoves (defaultNamespace : String) (objSet : ObjectSet)
    (gvk : GroupVersionKind) (key : ObjectKey) : Bool :=
  objSet.objects.any (fun e =>
      e.1.GroupKind == gvk.GroupKind && e.1 != gvk && e.2.contains key)
    || (key.Namespace == defaultNamespace && objSet.Contains gvk.GroupKind ⟨"", key.Name⟩)

-- ### Shared concrete fixtures for instantiating the theorems

/-- A benign environment used to instantiate the theorems on concrete runs. -/
def baseEnv : Env where
  resolve := Except.ok false
  isNamespaced := Except.ok true
  isNamespacedOwner := Except.ok false
  cacheList := fun _ => Except.ok []
  listAll := Except.ok []
  listNs := fun _ => Except.ok []
  prepareCreate := fun _ o =>
    match o with
    | some x => Except.ok x
    | none => Except.error "nil object"
  createObj := fun _ o => Except.ok o
  getObj := fun _ => Except.error "not found"
  deleteObj := fun _ _ => none
  sanitize := fun d _ => Except.ok d
  compare := fun _ _ _ _ _ => ⟨[], none⟩

/-- The execution state at the start of the phases: fresh sinks and traces. -/
def execState0 (existing : ObjectByKey) (toUpdate : List ObjectKey) : ExecState :=
  ⟨existing, toUpdate, [], [], [], []⟩

-- ### Concrete reconciliation fixtures

/-- A configuration with no owner, no lister namespace and no plan mode. -/
def cfg0 : DesiredSet where
  defaultNamespace := "default"
  listerNamespace := ""
  restrictClusterScoped := false
  setOwnerReference := false
  ownerReferenceController := false
  ownerReferenceBlock := false
  owner := none
  objs := ⟨[]⟩
  createPlan := false
  reconciler := none

/-- One desired object ns1/a. -/
def desired0 : ObjectByKey := [(⟨"ns1", "a"⟩, ⟨some ⟨"ns1", "a", [], "", []⟩⟩)]

-- ### C1

/-- An informer-backed environment whose cache holds one decodable object ns1/b
and one object whose metadata accessor fails, so listing returns a partially
populated map together with a non-nil aggregated error. -/
def envPartialList : Env :=
  { baseEnv with
      resolve := Except.ok true,
      cacheList := fun _ => Except.ok [⟨some ⟨"ns1", "b", [], "", []⟩⟩, ⟨none⟩] }

-- ### C3 helpers: what the plan-mode run records

/-- One recording-patcher step: the sanitized patch body, kept unless the
sanitizer failed or the body is the no-op patch. -/
def recStep (env : Env) (gvk : GroupVersionKind) (pc : PatchCall) :
    List (GroupVersionKind × String × String × String) :=
  match env.sanitize pc.data true with
  | .error _ => []
  | .ok d => if d != "{}" then [(gvk, pc.Namespace, pc.Name, d)] else []

/-- The records one comparison step's patcher invocations leave in the plan. -/
def recordCalls (env : Env) (gvk : GroupVersionKind) (calls : List PatchCall) :
    List (GroupVersionKind × String × String × String) :=
  (calls.map (recStep env gvk)).flatten

/-- The full update list a plan-mode run records: for each update key in order,
the sanitized non-noop patch bodies the comparison step pushed through the
recording patcher (reconciler nil, no other work pending). -/
def planRecordedUpdates (env : Env) (gvk : GroupVersionKind)
    (existing objs : ObjectByKey) (keys : List ObjectKey) :
    List (GroupVersionKind × String × String × String) :=
  (keys.map (fun k => recordCalls env gvk
      (env.compare k none (lookupKey existing k) (lookupKey objs k) false).patchCalls)).flatten

/-- The update failures the comparison step reports per key. -/
def updErrList (k : ObjectKey) : Option UpdErr → List ProcErr
  | some (UpdErr.otherErr e) => [ProcErr.updateFailed k e]
  | _ => []

def planUpdateErrs (env : Env) (existing objs : ObjectByKey) (keys : List ObjectKey) :
    List ProcErr :=
  (keys.map (fun k => updErrList k
      (env.compare k none (lookupKey existing k) (lookupKey objs k) false).result)).flatten

/-- The plan-mode configuration used to instantiate the plan-mode theorem. -/
def planCfg : DesiredSet := { cfg0 with createPlan := true }

/-- An informer-backed environment where ns1/a already exists and the comparison
step pushes one non-noop patch body per key through the patcher. -/
def planEnv : Env :=
  { baseEnv with
      resolve := Except.ok true,
      cacheList := fun _ => Except.ok [⟨some ⟨"ns1", "a", [], "", []⟩⟩],
      compare := fun k _ _ _ _ =>
        ⟨[⟨k.Namespace, k.Name, "strategic", "patchbody"⟩], none⟩ }

-- ## Theorems

-- ### Order and sorting lemmas

theorem strLeAux_total : ∀ a b : List Char, (strLeAux a b || strLeAux b a) = true
  | [], [] => rfl
  | [], _ :: _ => rfl
  | _ :: _, [] => rfl
  | a :: as, b :: bs => by
    rcases Nat.lt_trichotomy a.toNat b.toNat with h | h | h
    · simp [strLeAux, h]
    · simp only [strLeAux, if_neg (show ¬ a.toNat < b.toNat by omega),
        if_neg (show ¬ b.toNat < a.toNat by omega)]
      exact strLeAux_total as bs
    · simp [strLeAux, h, show ¬ a.toNat < b.toNat by omega]

theorem strLeAux_trans : ∀ a b c : List Char,
    strLeAux a b = true → strLeAux b c = true → strLeAux a c = true
  | [], _, _, _, _ => rfl
  | _ :: _, [], _, h, _ => absurd h (by simp [strLeAux])
  | _ :: _, _ :: _, [], _, h => absurd h (by simp [strLeAux])
  | a :: as, b :: bs, c :: cs, h1, h2 => by
    simp only [strLeAux] at h1 h2 ⊢
    by_cases hab : a.toNat < b.toNat
    · by_cases hbc : b.toNat < c.toNat
      · rw [if_pos (Nat.lt_trans hab hbc)]
      · by_cases hcb : c.toNat < b.toNat
        · rw [if_neg hbc, if_pos hcb] at h2
          simp at h2
        · rw [if_pos (show a.toNat < c.toNat by omega)]
    · by_cases hba : b.toNat < a.toNat
      · rw [if_neg hab, if_pos hba] at h1
        simp at h1
      · rw [if_neg hab, if_neg hba] at h1
        by_cases hbc : b.toNat < c.toNat
        · rw [if_pos (show a.toNat < c.toNat by omega)]
        · by_cases hcb : c.toNat < b.toNat
          · rw [if_neg hbc, if_pos hcb] at h2
            simp at h2
          · rw [if_neg hbc, if_neg hcb] at h2
            rw [if_neg (show ¬ a.toNat < c.toNat by omega),
              if_neg (show ¬ c.toNat < a.toNat by omega)]
            exact strLeAux_trans as bs cs h1 h2

theorem keyLe_total (a b : ObjectKey) : (keyLe a b || keyLe b a) = true :=
  strLeAux_total _ _

theorem keyLe_trans {a b c : ObjectKey} (h1 : keyLe a b = true) (h2 : keyLe b c = true) :
    keyLe a c = true :=
  strLeAux_trans _ _ _ h1 h2

theorem keyLe_of_not_keyLe {a b : ObjectKey} (h : ¬ keyLe a b = true) : keyLe b a = true := by
  have := keyLe_total a b
  rcases Bool.or_eq_true_iff.mp this with h' | h'
  · exact absurd h' h
  · exact h'

theorem mem_insertKey {y x : ObjectKey} : ∀ {l : List ObjectKey},
    y ∈ insertKey x l ↔ y = x ∨ y ∈ l
  | [] => by simp [insertKey]
  | z :: zs => by
    simp only [insertKey]
    by_cases h : keyLe x z
    · simp [h]
    · simp only [if_neg h, List.mem_cons, mem_insertKey (l := zs)]
      tauto

theorem pairwise_insertKey {x : ObjectKey} : ∀ {l : List ObjectKey},
    l.Pairwise (fun a b => keyLe a b = true) →
    (insertKey x l).Pairwise (fun a b => keyLe a b = true)
  | [], _ => by simp [insertKey]
  | z :: zs, h => by
    rcases List.pairwise_cons.mp h with ⟨hz, hzs⟩
    simp only [insertKey]
    by_cases hxz : keyLe x z = true
    · rw [if_pos hxz]
      refine List.pairwise_cons.mpr ⟨?_, h⟩
      intro b hb
      rcases List.mem_cons.mp hb with rfl | hb
      · exact hxz
      · exact keyLe_trans hxz (hz b hb)
    · rw [if_neg hxz]
      refine List.pairwise_cons.mpr ⟨?_, pairwise_insertKey hzs⟩
      intro b hb
      rcases mem_insertKey.mp hb with rfl | hb
      · exact keyLe_of_not_keyLe hxz
      · exact hz b hb

theorem mem_sortObjectKeys {y : ObjectKey} : ∀ {l : List ObjectKey},
    y ∈ sortObjectKeys l ↔ y ∈ l
  | [] => Iff.rfl
  | z :: zs => by
    show y ∈ insertKey z (List.foldr insertKey [] zs) ↔ _
    rw [mem_insertKey]
    have ih : y ∈ sortObjectKeys zs ↔ y ∈ zs := mem_sortObjectKeys (l := zs)
    simp only [sortObjectKeys] at ih
    rw [ih, List.mem_cons]

theorem sorted_sortObjectKeys : ∀ (l : List ObjectKey),
    (sortObjectKeys l).Pairwise (fun a b => keyLe a b = true)
  | [] => List.Pairwise.nil
  | z :: zs => by
    simp only [sortObjectKeys, List.foldr_cons]
    exact pairwise_insertKey (sorted_sortObjectKeys zs)

-- ### Key lookup lemmas

theorem hasKey_iff {m : ObjectByKey} {k : ObjectKey} :
    hasKey m k = true ↔ ∃ v, (k, v) ∈ m := by
  unfold hasKey lookupKey
  rw [Option.isSome_map', List.find?_isSome]
  constructor
  · rintro ⟨kv, hmem, hp⟩
    have hk : kv.1 = k := by simpa using hp
    exact ⟨kv.2, by rw [← hk]; exact hmem⟩
  · rintro ⟨v, hv⟩
    exact ⟨(k, v), hv, by simp⟩

theorem hasKey_eq_false_iff {m : ObjectByKey} {k : ObjectKey} :
    hasKey m k = false ↔ ∀ v, (k, v) ∉ m := by
  rw [← Bool.not_eq_true, hasKey_iff]
  push_neg
  rfl

-- ### compareSets membership characterisations

theorem mem_compareSets_create {e n : ObjectByKey} {k : ObjectKey} :
    k ∈ (compareSets e n).1 ↔ (∃ v, (k, v) ∈ n) ∧ hasKey e k = false := by
  unfold compareSets
  rw [mem_sortObjectKeys]
  simp only [List.mem_map, List.mem_filter]
  constructor
  · rintro ⟨kv, ⟨hmem, hp⟩, rfl⟩
    exact ⟨⟨kv.2, hmem⟩, by simpa using hp⟩
  · rintro ⟨⟨v, hv⟩, hfalse⟩
    exact ⟨(k, v), ⟨hv, by simpa using hfalse⟩, rfl⟩

theorem mem_compareSets_update {e n : ObjectByKey} {k : ObjectKey} :
    k ∈ (compareSets e n).2.2 ↔ (∃ v, (k, v) ∈ n) ∧ hasKey e k = true := by
  unfold compareSets
  rw [mem_sortObjectKeys]
  simp only [List.mem_map, List.mem_filter]
  constructor
  · rintro ⟨kv, ⟨hmem, hp⟩, rfl⟩
    exact ⟨⟨kv.2, hmem⟩, hp⟩
  · rintro ⟨⟨v, hv⟩, htrue⟩
    exact ⟨(k, v), ⟨hv, htrue⟩, rfl⟩

theorem mem_compareSets_delete {e n : ObjectByKey} {k : ObjectKey} :
    k ∈ (compareSets e n).2.1 ↔
      hasKey n k = false ∧ ∃ obj, (k, obj) ∈ e ∧ shouldPrune obj = true := by
  unfold compareSets
  rw [mem_sortObjectKeys]
  simp only [List.mem_map, List.mem_filter, Bool.and_eq_true]
  constructor
  · rintro ⟨kv, ⟨hmem, hn, hp⟩, rfl⟩
    exact ⟨by simpa using hn, kv.2, hmem, hp⟩
  · rintro ⟨hfalse, obj, hobj, hp⟩
    exact ⟨(k, obj), ⟨hobj, by simpa using hfalse, hp⟩, rfl⟩

-- ### Further helper lemmas

theorem nodupKeys_unique : ∀ (m : ObjectByKey), nodupKeys m →
    ∀ (k : ObjectKey) (v v' : K8sObject), (k, v) ∈ m → (k, v') ∈ m → v = v'
  | [], _, _, _, _, h1, _ => absurd h1 (List.not_mem_nil _)
  | a :: t, h, k, v, v', h1, h2 => by
    have h' : (a.1 :: t.map (fun kv => kv.1)).Nodup := by simpa [nodupKeys] using h
    rcases List.nodup_cons.mp h' with ⟨ha, ht⟩
    rcases List.mem_cons.mp h1 with rfl | h1'
    · rcases List.mem_cons.mp h2 with heq | h2'
      · exact (congrArg Prod.snd heq).symm
      · exact absurd (List.mem_map.mpr ⟨(k, v'), h2', rfl⟩) ha
    · rcases List.mem_cons.mp h2 with rfl | h2'
      · exact absurd (List.mem_map.mpr ⟨(k, v), h1', rfl⟩) ha
      · exact nodupKeys_unique t ht k v v' h1' h2'

theorem shouldPrune_eq_not_hasPruneDisableLabel (obj : K8sObject) :
    shouldPrune obj = !hasPruneDisableLabel obj := by
  unfold shouldPrune hasPruneDisableLabel
  cases obj.meta <;> rfl

-- ### C4

/-- C4 (amended): compareSets sends a desired key found in existing to update, a
desired key absent from existing to create, and an existing key absent from
desired to delete exactly when its object is prune-eligible — a prune-disabled
existing key lands in no output, so the three outputs cover each key at most
once rather than exactly once; each output is sorted by the keys' namespace/name
string form. -/
theorem compareSets_partition_sorted (existingSet newSet : ObjectByKey) :
    ((compareSets existingSet newSet).1.Pairwise (fun a b => keyLe a b = true)
      ∧ (compareSets existingSet newSet).2.1.Pairwise (fun a b => keyLe a b = true)
      ∧ (compareSets existingSet newSet).2.2.Pairwise (fun a b => keyLe a b = true))
    ∧ (∀ k : ObjectKey,
        (k ∈ (compareSets existingSet newSet).2.2 ↔
          hasKey newSet k = true ∧ hasKey existingSet k = true)
      ∧ (k ∈ (compareSets existingSet newSet).1 ↔
          hasKey newSet k = true ∧ hasKey existingSet k = false)
      ∧ (k ∈ (compareSets existingSet newSet).2.1 ↔
          hasKey newSet k = false ∧ ∃ obj, (k, obj) ∈ existingSet ∧ shouldPrune obj = true))
    ∧ (∀ k : ObjectKey,
        ¬(k ∈ (compareSets existingSet newSet).1 ∧ k ∈ (compareSets existingSet newSet).2.2)
      ∧ ¬(k ∈ (compareSets existingSet newSet).1 ∧ k ∈ (compareSets existingSet newSet).2.1)
      ∧ ¬(k ∈ (compareSets existingSet newSet).2.2 ∧ k ∈ (compareSets existingSet newSet).2.1)) := by
  refine ⟨⟨?_, ?_, ?_⟩, ?_, ?_⟩
  · exact sorted_sortObjectKeys _
  · exact sorted_sortObjectKeys _
  · exact sorted_sortObjectKeys _
  · intro k
    refine ⟨?_, ?_, mem_compareSets_delete⟩
    · rw [mem_compareSets_update, ← hasKey_iff]
    · rw [mem_compareSets_create, ← hasKey_iff]
  · intro k
    refine ⟨?_, ?_, ?_⟩
    · rintro ⟨h1, h2⟩
      rw [mem_compareSets_create] at h1
      rw [mem_compareSets_update] at h2
      rw [← hasKey_iff] at h2
      rw [h1.2] at h2
      exact Bool.false_ne_true h2.2
    · rintro ⟨h1, h2⟩
      rw [mem_compareSets_create] at h1
      rw [mem_compareSets_delete] at h2
      have hk := hasKey_iff.mpr h1.1
      rw [h2.1] at hk
      exact Bool.false_ne_true hk
    · rintro ⟨h1, h2⟩
      rw [mem_compareSets_update] at h1
      rw [mem_compareSets_delete] at h2
      have hk := hasKey_iff.mpr h1.1
      rw [h2.1] at hk
      exact Bool.false_ne_true hk

/-- C4 is refuted as literally stated: an existing object whose prune label is
"false" and whose key is absent from the desired set is placed in none of the
three outputs, not in the delete output. -/
theorem compareSets_pruneDisabled_counterexample :
    compareSets
        [((⟨"ns1", "c"⟩ : ObjectKey),
          (⟨some ⟨"ns1", "c", [(LabelPrune, "false")], "", []⟩⟩ : K8sObject))] []
      = ([], [], []) := by
  decide

theorem compareSets_partition_sorted_witness :
    (⟨"ns1", "a"⟩ : ObjectKey) ∈
      (compareSets [] [((⟨"ns1", "a"⟩ : ObjectKey), (⟨none⟩ : K8sObject))]).1 :=
  (((compareSets_partition_sorted [] [((⟨"ns1", "a"⟩ : ObjectKey), (⟨none⟩ : K8sObject))]).2.1
      ⟨"ns1", "a"⟩).2.1).mpr ⟨by decide, by decide⟩

-- ### C5

/-- C5: an existing object whose key is absent from the desired set is proposed
for deletion iff it lacks a prune-disabling label (prune label not "false"). -/
theorem compareSets_delete_iff_pruneLabel (existingSet newSet : ObjectByKey)
    (k : ObjectKey) (obj : K8sObject)
    (hnd : nodupKeys existingSet) (hmem : (k, obj) ∈ existingSet)
    (habs : hasKey newSet k = false) :
    k ∈ (compareSets existingSet newSet).2.1 ↔ hasPruneDisableLabel obj = false := by
  rw [mem_compareSets_delete]
  constructor
  · rintro ⟨-, obj', hmem', hp⟩
    have heq : obj' = obj := nodupKeys_unique existingSet hnd k obj' obj hmem' hmem
    subst heq
    rw [shouldPrune_eq_not_hasPruneDisableLabel] at hp
    simpa using hp
  · intro h
    refine ⟨habs, obj, hmem, ?_⟩
    rw [shouldPrune_eq_not_hasPruneDisableLabel, h]
    rfl

theorem compareSets_delete_iff_pruneLabel_witness :
    (⟨"ns1", "c"⟩ : ObjectKey) ∈
      (compareSets [((⟨"ns1", "c"⟩ : ObjectKey),
        (⟨some ⟨"ns1", "c", [], "", []⟩⟩ : K8sObject))] []).2.1 :=
  (compareSets_delete_iff_pruneLabel
      [((⟨"ns1", "c"⟩ : ObjectKey), (⟨some ⟨"ns1", "c", [], "", []⟩⟩ : K8sObject))] []
      ⟨"ns1", "c"⟩ (⟨some ⟨"ns1", "c", [], "", []⟩⟩ : K8sObject)
      (by decide) (by decide) (by decide)).mpr (by decide)

-- ### C10

/-- C10: an existing object whose metadata accessor fails is always treated as
prune-eligible, and when its key is absent from the desired set it becomes a
delete candidate. -/
theorem shouldPrune_accessorError (existingSet newSet : ObjectByKey)
    (k : ObjectKey) (obj : K8sObject)
    (hmeta : obj.meta = none) (hmem : (k, obj) ∈ existingSet)
    (habs : hasKey newSet k = false) :
    shouldPrune obj = true ∧ k ∈ (compareSets existingSet newSet).2.1 := by
  have hsp : shouldPrune obj = true := by
    unfold shouldPrune
    rw [hmeta]
  exact ⟨hsp, mem_compareSets_delete.mpr ⟨habs, obj, hmem, hsp⟩⟩

theorem shouldPrune_accessorError_witness :
    shouldPrune (⟨none⟩ : K8sObject) = true
    ∧ (⟨"ns1", "x"⟩ : ObjectKey) ∈
        (compareSets [((⟨"ns1", "x"⟩ : ObjectKey), (⟨none⟩ : K8sObject))] []).2.1 :=
  shouldPrune_accessorError [((⟨"ns1", "x"⟩ : ObjectKey), (⟨none⟩ : K8sObject))] []
    ⟨"ns1", "x"⟩ ⟨none⟩ rfl (by decide) (by decide)

/-- C6 (amended): the cross-version filter removes exactly those candidates whose
key is carried by the overall collection under ANY version of the same
group+kind (possibly the very version being processed), or whose
default-namespace key matches an unqualified name; all other candidates are
kept, in order. -/
theorem filterCrossVersion_characterization (defaultNamespace : String)
    (objSet : ObjectSet) (gvk : GroupVersionKind) (keys : List ObjectKey) :
    filterCrossVersion defaultNamespace objSet gvk keys
      = keys.filter (fun key => !(objSet.Contains gvk.GroupKind key
          || (key.Namespace == defaultNamespace
              && objSet.Contains gvk.GroupKind ⟨"", key.Name⟩))) := by
  have main : ∀ (ks : List ObjectKey) (acc : List ObjectKey),
      ks.foldl (fun result key =>
        if objSet.Contains gvk.GroupKind key then result
        else if key.Namespace == defaultNamespace
            && objSet.Contains gvk.GroupKind ⟨"", key.Name⟩ then result
        else result ++ [key]) acc
      = acc ++ ks.filter (fun key => !(objSet.Contains gvk.GroupKind key
          || (key.Namespace == defaultNamespace
              && objSet.Contains gvk.GroupKind ⟨"", key.Name⟩))) := by
    intro ks
    induction ks with
    | nil => intro acc; simp
    | cons k t ih =>
      intro acc
      simp only [List.foldl_cons]
      by_cases h1 : objSet.Contains gvk.GroupKind k = true
      · rw [if_pos h1, ih acc]
        congr 1
        simp [List.filter_cons, h1]
      · have hb1 : objSet.Contains gvk.GroupKind k = false := by simpa using h1
        by_cases h2 : (k.Namespace == defaultNamespace
            && objSet.Contains gvk.GroupKind ⟨"", k.Name⟩) = true
        · rw [if_neg h1, if_pos h2, ih acc]
          congr 1
          have hp : (!(objSet.Contains gvk.GroupKind k
              || (k.Namespace == defaultNamespace
                  && objSet.Contains gvk.GroupKind ⟨"", k.Name⟩))) = false := by
            rw [hb1, h2]
            decide
          rw [List.filter_cons, hp, if_neg Bool.false_ne_true]
        · have hb2 : (k.Namespace == defaultNamespace
              && objSet.Contains gvk.GroupKind ⟨"", k.Name⟩) = false := by simpa using h2
          rw [if_neg h1, if_neg h2, ih (acc ++ [k]), List.append_assoc]
          congr 1
          have hp : (!(objSet.Contains gvk.GroupKind k
              || (k.Namespace == defaultNamespace
                  && objSet.Contains gvk.GroupKind ⟨"", k.Name⟩))) = true := by
            rw [hb1, hb2]
            decide
          rw [List.filter_cons, if_pos hp, List.singleton_append]
  unfold filterCrossVersion
  simpa using main keys []

/-- C6 is refuted as literally stated: a delete candidate carried by the overall
collection only under the SAME version being processed (so the claim's removal
condition does not apply, and no default-namespace collapse applies) is
nevertheless removed by filterCrossVersion. -/
theorem filterCrossVersion_sameVersion_counterexample :
    specCrossVersionRemoves "default"
        (⟨[(⟨"apps", "v1", "Deployment"⟩, [⟨"ns1", "a"⟩])]⟩ : ObjectSet)
        ⟨"apps", "v1", "Deployment"⟩ ⟨"ns1", "a"⟩ = false
    ∧ filterCrossVersion "default"
        (⟨[(⟨"apps", "v1", "Deployment"⟩, [⟨"ns1", "a"⟩])]⟩ : ObjectSet)
        ⟨"apps", "v1", "Deployment"⟩ [⟨"ns1", "a"⟩] = [] := by
  decide

-- ### C7

/-- C7: when create fails with already-exists and the follow-up get succeeds, the
key is appended to the update list with the fetched object installed as its
existing state, and nothing is reported through the error sink for that key
(take-over, not a failure). -/
theorem createF_takeover (env : Env) (gvk : GroupVersionKind) (objs : ObjectByKey)
    (st : ExecState) (k : ObjectKey) (pobj fetched : K8sObject) (m : String)
    (hprep : env.prepareCreate gvk (lookupKey objs k) = Except.ok pobj)
    (hcreate : env.createObj k pobj = Except.error (StoreErr.alreadyExists m))
    (hget : env.getObj k = Except.ok fetched) :
    createF env gvk objs st k =
      { st with ops := st.ops ++ [StoreOp.createOp k],
                toUpdate := st.toUpdate ++ [k],
                existing := mapSet st.existing k fetched } := by
  unfold createF
  rw [hprep]
  simp only [hcreate, hget, StoreErr.isAlreadyExists, if_true]

theorem createF_takeover_witness :
    createF
        { baseEnv with
            createObj := fun _ _ => Except.error (StoreErr.alreadyExists "exists"),
            getObj := fun _ => Except.ok ⟨some ⟨"ns1", "a", [], "u1", []⟩⟩ }
        ⟨"apps", "v1", "Deployment"⟩
        [(⟨"ns1", "a"⟩, ⟨some ⟨"ns1", "a", [], "", []⟩⟩)]
        (execState0 [] []) ⟨"ns1", "a"⟩ =
      { execState0 [] [] with
          ops := [StoreOp.createOp ⟨"ns1", "a"⟩],
          toUpdate := [(⟨"ns1", "a"⟩ : ObjectKey)],
          existing := mapSet [] ⟨"ns1", "a"⟩ ⟨some ⟨"ns1", "a", [], "u1", []⟩⟩ } :=
  createF_takeover
    { baseEnv with
        createObj := fun _ _ => Except.error (StoreErr.alreadyExists "exists"),
        getObj := fun _ => Except.ok ⟨some ⟨"ns1", "a", [], "u1", []⟩⟩ }
    ⟨"apps", "v1", "Deployment"⟩
    [(⟨"ns1", "a"⟩, ⟨some ⟨"ns1", "a", [], "", []⟩⟩)]
    (execState0 [] []) ⟨"ns1", "a"⟩
    ⟨some ⟨"ns1", "a", [], "", []⟩⟩ ⟨some ⟨"ns1", "a", [], "u1", []⟩⟩ "exists"
    rfl rfl rfl

-- ### C9

/-- C9: when create fails with already-exists but the follow-up get also fails,
the key is not reclassified; the original already-exists error — not the get
error — is reported as a create failure, and the update list and existing map
are left untouched. -/
theorem createF_alreadyExists_getFails (env : Env) (gvk : GroupVersionKind)
    (objs : ObjectByKey) (st : ExecState) (k : ObjectKey) (pobj : K8sObject)
    (m gmsg : String)
    (hprep : env.prepareCreate gvk (lookupKey objs k) = Except.ok pobj)
    (hcreate : env.createObj k pobj = Except.error (StoreErr.alreadyExists m))
    (hget : env.getObj k = Except.error gmsg) :
    createF env gvk objs st k =
      { st with ops := st.ops ++ [StoreOp.createOp k],
                errs := st.errs ++ [ProcErr.createFailed k (StoreErr.alreadyExists m)] } := by
  unfold createF
  rw [hprep]
  simp only [hcreate, hget, StoreErr.isAlreadyExists, if_true]

theorem createF_alreadyExists_getFails_witness :
    createF
        { baseEnv with
            createObj := fun _ _ => Except.error (StoreErr.alreadyExists "exists") }
        ⟨"apps", "v1", "Deployment"⟩
        [(⟨"ns1", "a"⟩, ⟨some ⟨"ns1", "a", [], "", []⟩⟩)]
        (execState0 [] []) ⟨"ns1", "a"⟩ =
      { execState0 [] [] with
          ops := [StoreOp.createOp ⟨"ns1", "a"⟩],
          errs := [ProcErr.createFailed ⟨"ns1", "a"⟩ (StoreErr.alreadyExists "exists")] } :=
  createF_alreadyExists_getFails
    { baseEnv with
        createObj := fun _ _ => Except.error (StoreErr.alreadyExists "exists") }
    ⟨"apps", "v1", "Deployment"⟩
    [(⟨"ns1", "a"⟩, ⟨some ⟨"ns1", "a", [], "", []⟩⟩)]
    (execState0 [] []) ⟨"ns1", "a"⟩
    ⟨some ⟨"ns1", "a", [], "", []⟩⟩ "exists" "not found"
    rfl rfl rfl

-- ### C8 helpers: patcher-fold structure

theorem applyPatchCall_fields (env : Env) (gvk : GroupVersionKind) (plan : Bool)
    (st : ExecState) (pc : PatchCall) :
    ∃ l, (applyPatchCall env gvk plan st pc).ops = st.ops ++ l
      ∧ (∀ op ∈ l, ∃ a b c, op = StoreOp.patchOp a b c)
      ∧ (applyPatchCall env gvk plan st pc).errs = st.errs
      ∧ (applyPatchCall env gvk plan st pc).existing = st.existing
      ∧ (applyPatchCall env gvk plan st pc).toUpdate = st.toUpdate
      ∧ (applyPatchCall env gvk plan st pc).compareCalls = st.compareCalls := by
  unfold applyPatchCall
  cases plan with
  | false =>
    exact ⟨[StoreOp.patchOp pc.Namespace pc.Name pc.data],
      by simp, by simp, by simp, by simp, by simp, by simp⟩
  | true =>
    cases hsan : env.sanitize pc.data true with
    | error e =>
      refine ⟨[], ?_, by simp, ?_, ?_, ?_, ?_⟩ <;> simp [hsan]
    | ok d =>
      by_cases hd : (d != "{}") = true
      · refine ⟨[], ?_, by simp, ?_, ?_, ?_, ?_⟩ <;> simp [hsan, hd]
      · refine ⟨[], ?_, by simp, ?_, ?_, ?_, ?_⟩ <;> simp [hsan, hd]

theorem patchFold_fields (env : Env) (gvk : GroupVersionKind) (plan : Bool) :
    ∀ (calls : List PatchCall) (st : ExecState),
    ∃ l, (calls.foldl (applyPatchCall env gvk plan) st).ops = st.ops ++ l
      ∧ (∀ op ∈ l, ∃ a b c, op = StoreOp.patchOp a b c)
      ∧ (calls.foldl (applyPatchCall env gvk plan) st).errs = st.errs
      ∧ (calls.foldl (applyPatchCall env gvk plan) st).existing = st.existing
      ∧ (calls.foldl (applyPatchCall env gvk plan) st).toUpdate = st.toUpdate
      ∧ (calls.foldl (applyPatchCall env gvk plan) st).compareCalls = st.compareCalls
  | [], st => ⟨[], by simp, by simp, rfl, rfl, rfl, rfl⟩
  | pc :: calls, st => by
    obtain ⟨l1, h1ops, h1p, h1errs, h1ex, h1tu, h1cc⟩ := applyPatchCall_fields env gvk plan st pc
    obtain ⟨l2, h2ops, h2p, h2errs, h2ex, h2tu, h2cc⟩ :=
      patchFold_fields env gvk plan calls (applyPatchCall env gvk plan st pc)
    refine ⟨l1 ++ l2, ?_, ?_, ?_, ?_, ?_, ?_⟩
    · rw [List.foldl_cons, h2ops, h1ops, List.append_assoc]
    · intro op hop
      rcases List.mem_append.mp hop with h | h
      · exact h1p op h
      · exact h2p op h
    · rw [List.foldl_cons, h2errs, h1errs]
    · rw [List.foldl_cons, h2ex, h1ex]
    · rw [List.foldl_cons, h2tu, h1tu]
    · rw [List.foldl_cons, h2cc, h1cc]

-- ### C8

/-- C8: when the comparison step returns the ErrReplace sentinel for a key, the
object is deleted with the force flag set and a transient replace-wait condition
is reported (never an update failure for that key); when it returns any other
non-nil error, an update failure is reported and no delete is issued for that
key; and in neither case is the batch aborted — the fold over the remaining
update keys continues from the resulting state. -/
theorem updateF_replace_handling (env : Env) (gvk : GroupVersionKind)
    (objs : ObjectByKey) (reconciler : Option String) (plan pending : Bool)
    (st : ExecState) (k : ObjectKey) :
    ((env.compare k reconciler (lookupKey st.existing k) (lookupKey objs k) pending).result
        = some UpdErr.replace →
      StoreOp.deleteOp k true ∈ (updateF env gvk objs reconciler plan pending st k).ops
      ∧ ProcErr.replaceWait k ∈ (updateF env gvk objs reconciler plan pending st k).errs
      ∧ ∀ e, ProcErr.updateFailed k e ∉ st.errs →
          ProcErr.updateFailed k e ∉ (updateF env gvk objs reconciler plan pending st k).errs)
    ∧ (∀ e, (env.compare k reconciler (lookupKey st.existing k) (lookupKey objs k) pending).result
        = some (UpdErr.otherErr e) →
      ProcErr.updateFailed k e ∈ (updateF env gvk objs reconciler plan pending st k).errs
      ∧ ∀ force, StoreOp.deleteOp k force ∉ st.ops →
          StoreOp.deleteOp k force ∉ (updateF env gvk objs reconciler plan pending st k).ops)
    ∧ (∀ ks : List ObjectKey,
      (k :: ks).foldl (updateF env gvk objs reconciler plan pending) st
        = ks.foldl (updateF env gvk objs reconciler plan pending)
            (updateF env gvk objs reconciler plan pending st k)) := by
  obtain ⟨l, hops, hpatch, herrs, hex, htu, hcc⟩ :=
    patchFold_fields env gvk plan
      (env.compare k reconciler (lookupKey st.existing k) (lookupKey objs k) pending).patchCalls
      { st with compareCalls := st.compareCalls ++ [⟨k, reconciler⟩] }
  refine ⟨?_, ?_, fun ks => List.foldl_cons ks st⟩
  · intro hres
    simp only [updateF, hres]
    unfold deleteF
    cases hdel : env.deleteObj k true with
    | some e =>
      refine ⟨?_, ?_, ?_⟩
      · simp [hops]
      · simp
      · intro e' he'
        simp only [List.mem_append, not_or, herrs]
        refine ⟨⟨he', ?_⟩, ?_⟩ <;> simp
    | none =>
      refine ⟨?_, ?_, ?_⟩
      · simp [hops]
      · simp
      · intro e' he'
        simp only [List.mem_append, not_or, herrs]
        refine ⟨he', ?_⟩
        simp
  · intro e hres
    simp only [updateF, hres]
    refine ⟨?_, ?_⟩
    · simp [herrs]
    · intro force hforce
      simp only [List.mem_append, not_or, hops]
      refine ⟨hforce, ?_⟩
      intro hmem
      obtain ⟨a, b, c, habc⟩ := hpatch _ hmem
      cases habc

theorem updateF_replace_handling_witness :
    (StoreOp.deleteOp ⟨"ns1", "b"⟩ true ∈
        (updateF { baseEnv with compare := fun _ _ _ _ _ => ⟨[], some UpdErr.replace⟩ }
          ⟨"apps", "v1", "Deployment"⟩ [] none false false (execState0 [] []) ⟨"ns1", "b"⟩).ops
      ∧ ProcErr.replaceWait ⟨"ns1", "b"⟩ ∈
        (updateF { baseEnv with compare := fun _ _ _ _ _ => ⟨[], some UpdErr.replace⟩ }
          ⟨"apps", "v1", "Deployment"⟩ [] none false false (execState0 [] []) ⟨"ns1", "b"⟩).errs)
    ∧ ProcErr.updateFailed ⟨"ns1", "b"⟩ "boom" ∈
        (updateF { baseEnv with compare := fun _ _ _ _ _ => ⟨[], some (UpdErr.otherErr "boom")⟩ }
          ⟨"apps", "v1", "Deployment"⟩ [] none false false (execState0 [] []) ⟨"ns1", "b"⟩).errs := by
  constructor
  · have h := (updateF_replace_handling
      { baseEnv with compare := fun _ _ _ _ _ => ⟨[], some UpdErr.replace⟩ }
      ⟨"apps", "v1", "Deployment"⟩ [] none false false (execState0 [] []) ⟨"ns1", "b"⟩).1 rfl
    exact ⟨h.1, h.2.1⟩
  · exact ((updateF_replace_handling
      { baseEnv with compare := fun _ _ _ _ _ => ⟨[], some (UpdErr.otherErr "boom")⟩ }
      ⟨"apps", "v1", "Deployment"⟩ [] none false false (execState0 [] []) ⟨"ns1", "b"⟩).2.1
      "boom" rfl).1

/-- C1 is refuted as stated: the State Lister returns a non-nil aggregated error
together with a non-empty partially-populated map, yet process does not use the
partial objects as existing state — it reports the wrapped listing failure and
returns for that kind, with no diffing, no store calls and no comparison calls. -/
theorem process_discardsPartialList_counterexample :
    list cfg0 envPartialList true true desired0
      = ([(⟨"ns1", "b"⟩, ⟨some ⟨"ns1", "b", [], "", []⟩⟩)], some ["no meta accessor"])
    ∧ process cfg0 envPartialList ⟨"apps", "v1", "Deployment"⟩ desired0
      = ⟨[ProcErr.listFailed ["no meta accessor"]], [], [], Plan.empty⟩ := by
  exact ⟨rfl, rfl⟩

/-- C1 (amended): list does hand back the partially-gathered objects alongside
the aggregated error, but process treats any non-nil listing error as fatal for
that kind: it reports the wrapped error through the sink and returns, performing
no diffing or execution against the partial state, which is discarded. -/
theorem process_abortsOnListError (cfg : DesiredSet) (env : Env) (gvk : GroupVersionKind)
    (objsIn objs1 listedSoFar : ObjectByKey) (hasInf : Bool) (es : List String)
    (hres : env.resolve = Except.ok hasInf)
    (hns : env.isNamespaced = Except.ok true)
    (howner : cfg.setOwnerReference = false)
    (hnorm : adjustNamespace cfg.defaultNamespace objsIn = Except.ok objs1)
    (hlist : list cfg env true hasInf objs1 = (listedSoFar, some es)) :
    process cfg env gvk objsIn = ⟨[ProcErr.listFailed es], [], [], Plan.empty⟩ := by
  simp only [process, hres, hns, howner, Bool.false_and, Bool.not_true, hnorm, hlist,
    abortResult, Bool.false_eq_true, if_false, if_true]

theorem process_abortsOnListError_witness :
    process cfg0 envPartialList ⟨"apps", "v1", "Deployment"⟩ desired0
      = ⟨[ProcErr.listFailed ["no meta accessor"]], [], [], Plan.empty⟩ :=
  process_abortsOnListError cfg0 envPartialList ⟨"apps", "v1", "Deployment"⟩ desired0
    desired0 [(⟨"ns1", "b"⟩, ⟨some ⟨"ns1", "b", [], "", []⟩⟩)] true ["no meta accessor"]
    rfl rfl rfl rfl rfl

-- ### C2

/-- C2: the code contradicts the claim (and its own comment at
desiredset_process.go:352-353, "desiredSets without owners will never return
objects to delete"): with no owner, no informer and no lister namespace
configured, an object listed in a desired namespace but absent from the desired
set is proposed by compareSets and then actually deleted by the delete phase. -/
theorem process_ownerless_deletes :
    (compareSets [(⟨"ns1", "b"⟩, ⟨some ⟨"ns1", "b", [], "", []⟩⟩)] desired0).2.1
      = [⟨"ns1", "b"⟩]
    ∧ cfg0.owner = none
    ∧ (process cfg0
        { baseEnv with listNs := fun ns =>
            if ns == "ns1" then Except.ok [⟨some ⟨"ns1", "b", [], "", []⟩⟩] else Except.ok [] }
        ⟨"apps", "v1", "Deployment"⟩ desired0).ops
      = [StoreOp.createOp ⟨"ns1", "a"⟩, StoreOp.deleteOp ⟨"ns1", "b"⟩ false] := by
  exact ⟨rfl, rfl, rfl⟩

theorem applyPatchCall_plan (env : Env) (gvk : GroupVersionKind)
    (st : ExecState) (pc : PatchCall) :
    applyPatchCall env gvk true st pc
      = { st with planUpdates := st.planUpdates ++ recStep env gvk pc } := by
  unfold applyPatchCall recStep
  cases hsan : env.sanitize pc.data true with
  | error e => simp
  | ok d =>
    by_cases hd : (d != "{}") = true
    · simp [hd]
    · simp [hd]

theorem patchFold_plan (env : Env) (gvk : GroupVersionKind) :
    ∀ (calls : List PatchCall) (st : ExecState),
    calls.foldl (applyPatchCall env gvk true) st
      = { st with planUpdates := st.planUpdates ++ recordCalls env gvk calls }
  | [], st => by simp [recordCalls]
  | pc :: calls, st => by
    rw [List.foldl_cons, applyPatchCall_plan, patchFold_plan env gvk calls]
    simp [recordCalls, List.append_assoc]

theorem updateF_plan (env : Env) (gvk : GroupVersionKind) (objs : ObjectByKey)
    (hnorep : ∀ k ex ds p, (env.compare k none ex ds p).result ≠ some UpdErr.replace)
    (st : ExecState) (k : ObjectKey) :
    updateF env gvk objs none true false st k
      = { st with
          compareCalls := st.compareCalls ++ [⟨k, none⟩],
          planUpdates := st.planUpdates
            ++ recordCalls env gvk
                (env.compare k none (lookupKey st.existing k) (lookupKey objs k) false).patchCalls,
          errs := st.errs
            ++ updErrList k
                (env.compare k none (lookupKey st.existing k) (lookupKey objs k) false).result } := by
  simp only [updateF, patchFold_plan]
  cases hres : (env.compare k none (lookupKey st.existing k) (lookupKey objs k) false).result with
  | none => simp [updErrList]
  | some u =>
    cases u with
    | replace => exact absurd hres (hnorep _ _ _ _)
    | otherErr e => simp [updErrList]

theorem planFold_eq (env : Env) (gvk : GroupVersionKind) (objs : ObjectByKey)
    (hnorep : ∀ k ex ds p, (env.compare k none ex ds p).result ≠ some UpdErr.replace) :
    ∀ (keys : List ObjectKey) (st : ExecState),
    keys.foldl (updateF env gvk objs none true false) st
      = { st with
          compareCalls := st.compareCalls ++ keys.map (fun k => CompareCall.mk k none),
          planUpdates := st.planUpdates ++ planRecordedUpdates env gvk st.existing objs keys,
          errs := st.errs ++ planUpdateErrs env st.existing objs keys }
  | [], st => by simp [planRecordedUpdates, planUpdateErrs]
  | k :: keys, st => by
    rw [List.foldl_cons, updateF_plan env gvk objs hnorep,
      planFold_eq env gvk objs hnorep keys]
    simp [planRecordedUpdates, planUpdateErrs, List.append_assoc]

-- ### C3

/-- C3: with plan mode on, process issues no mutating store calls: the computed
create list and the cross-version-filtered delete list are copied into the plan
and the execution loops then run over empty lists; every comparison-step
invocation receives no reconciler; and the plan's update list holds exactly the
sanitized non-noop patch bodies pushed through the recording patcher, in order.
(The hypothesis on the comparison step reflects that the ErrReplace sentinel
only originates from reconcilers or patcher overrides, both replaced in plan
mode, so the force-delete fallback cannot fire.) -/
theorem process_planMode (cfg : DesiredSet) (env : Env) (gvk : GroupVersionKind)
    (objsIn objs1 existing0 : ObjectByKey) (hasInf : Bool)
    (hplan : cfg.createPlan = true)
    (hres : env.resolve = Except.ok hasInf)
    (hns : env.isNamespaced = Except.ok true)
    (howner : cfg.setOwnerReference = false)
    (hnorm : adjustNamespace cfg.defaultNamespace objsIn = Except.ok objs1)
    (hlist : list cfg env true hasInf objs1 = (existing0, none))
    (hnorep : ∀ k ex ds p, (env.compare k none ex ds p).result ≠ some UpdErr.replace) :
    (process cfg env gvk objsIn).ops = []
    ∧ (process cfg env gvk objsIn).plan.Create = [(gvk, (compareSets existing0 objs1).1)]
    ∧ (process cfg env gvk objsIn).plan.Delete
        = [(gvk, filterCrossVersion cfg.defaultNamespace cfg.objs gvk
            (compareSets existing0 objs1).2.1)]
    ∧ (∀ c ∈ (process cfg env gvk objsIn).compareCalls, c.reconciler = none)
    ∧ (process cfg env gvk objsIn).plan.Update
        = planRecordedUpdates env gvk existing0 objs1 (compareSets existing0 objs1).2.2 := by
  have hp : process cfg env gvk objsIn
      = { errs := planUpdateErrs env existing0 objs1 (compareSets existing0 objs1).2.2,
          ops := [],
          compareCalls :=
            (compareSets existing0 objs1).2.2.map (fun k => CompareCall.mk k none),
          plan := { Create := [(gvk, (compareSets existing0 objs1).1)],
                    Delete := [(gvk, filterCrossVersion cfg.defaultNamespace cfg.objs gvk
                        (compareSets existing0 objs1).2.1)],
                    Update := planRecordedUpdates env gvk existing0 objs1
                        (compareSets existing0 objs1).2.2 } } := by
    simp only [process, hres, hns, howner, Bool.false_and, Bool.not_true, Bool.false_eq_true,
      if_false, if_true, hnorm, hlist, hplan, List.foldl_nil, List.isEmpty_nil,
      Bool.or_self, planFold_eq env gvk objs1 hnorep, List.nil_append]
  refine ⟨?_, ?_, ?_, ?_, ?_⟩
  · rw [hp]
  · rw [hp]
  · rw [hp]
  · rw [hp]
    intro c hc
    obtain ⟨k, hk, rfl⟩ := List.mem_map.mp hc
    rfl
  · rw [hp]

theorem process_planMode_witness :
    (process planCfg planEnv ⟨"apps", "v1", "Deployment"⟩ desired0).ops = []
    ∧ (process planCfg planEnv ⟨"apps", "v1", "Deployment"⟩ desired0).plan.Create
        = [(⟨"apps", "v1", "Deployment"⟩,
            (compareSets [(⟨"ns1", "a"⟩, ⟨some ⟨"ns1", "a", [], "", []⟩⟩)] desired0).1)]
    ∧ (process planCfg planEnv ⟨"apps", "v1", "Deployment"⟩ desired0).plan.Delete
        = [(⟨"apps", "v1", "Deployment"⟩,
            filterCrossVersion planCfg.defaultNamespace planCfg.objs ⟨"apps", "v1", "Deployment"⟩
              (compareSets [(⟨"ns1", "a"⟩, ⟨some ⟨"ns1", "a", [], "", []⟩⟩)] desired0).2.1)]
    ∧ (∀ c ∈ (process planCfg planEnv ⟨"apps", "v1", "Deployment"⟩ desired0).compareCalls,
        c.reconciler = none)
    ∧ (process planCfg planEnv ⟨"apps", "v1", "Deployment"⟩ desired0).plan.Update
        = planRecordedUpdates planEnv ⟨"apps", "v1", "Deployment"⟩
            [(⟨"ns1", "a"⟩, ⟨some ⟨"ns1", "a", [], "", []⟩⟩)] desired0
            (compareSets [(⟨"ns1", "a"⟩, ⟨some ⟨"ns1", "a", [], "", []⟩⟩)] desired0).2.2 :=
  process_planMode planCfg planEnv ⟨"apps", "v1", "Deployment"⟩ desired0 desired0
    [(⟨"ns1", "a"⟩, ⟨some ⟨"ns1", "a", [], "", []⟩⟩)] true
    rfl rfl rfl rfl rfl rfl
    (fun _ _ _ _ h => Option.noConfusion h)
